import Mathlib

/-!
Verification of the ObsidianScripts repository.

The repository is a set of command-line scripts that fetch metadata for
books, light novels, manga, movies/series and games, download a cover
image and write a templated Markdown note.  The one stateful component is
the cached bearer-token provider of the game script (`getToken` /
`fetchNewToken` together with the token cache file `tokenTwitch.json`);
the remaining scripts share a slugification expression and a
Markdown-template/filename convention.

This file gives a shallow embedding of those parts, translated from the
TypeScript source, and proves the specification's claims about them.
-/

/-! ## JavaScript value model for the token cache

`getToken` reads the cache with `JSON.parse` and compares
`saved.expires_at > now`.  The `expires_at` field of the parsed object can
be a number, a string, `null`, a boolean, or missing (`undefined`), and
JavaScript's `>` coerces the left operand to a number (`NaN` makes the
comparison false).  `JsVal` models the possible field values and `jsGt`
the coerced comparison. -/

/-- Value stored in the `expires_at` field of the parsed token file
(`undef` models a missing field / `undefined`). -/
inductive JsVal where
  | undef : JsVal
  | num : Int → JsVal
  | str : String → JsVal
  | jnull : JsVal
  | jbool : Bool → JsVal
  deriving DecidableEq

/-- Numeric value of a list of decimal digit characters. -/
def digitsVal (l : List Char) : Nat :=
  l.foldl (fun acc c => 10 * acc + (c.toNat - 48)) 0

/-- JavaScript number produced by a successful string coercion:
`Infinity`, `-Infinity`, or a finite value.  Finite values are modelled
as exact rationals (double rounding and overflow are idealized away;
this cannot change which strings coerce to `NaN`). -/
inductive JsNum where
  | finite : ℚ → JsNum
  | posInf : JsNum
  | negInf : JsNum
  deriving DecidableEq

/-- Whitespace stripped by JavaScript's string-to-number coercion
(`StrWhiteSpaceChar`: WhiteSpace and LineTerminator, the full list of
the specification). -/
def isJsWhitespace (c : Char) : Bool :=
  c == ' ' || c == '\t' || c == '\n' || c == '\r' ||
    c.val == 0xB || c.val == 0xC || c.val == 0xA0 || c.val == 0x1680 ||
    (decide (0x2000 ≤ c.val) && decide (c.val ≤ 0x200A)) ||
    c.val == 0x2028 || c.val == 0x2029 ||
    c.val == 0x202F || c.val == 0x205F || c.val == 0x3000 || c.val == 0xFEFF

/-- Hexadecimal digit class. -/
def isHexDigit (c : Char) : Bool :=
  c.isDigit || (decide ('a' ≤ c) && decide (c ≤ 'f')) || (decide ('A' ≤ c) && decide (c ≤ 'F'))

/-- Octal digit class. -/
def isOctDigit (c : Char) : Bool :=
  decide ('0' ≤ c) && decide (c ≤ '7')

/-- Binary digit class. -/
def isBinDigit (c : Char) : Bool :=
  c == '0' || c == '1'

/-- Value of a digit character in bases up to 16. -/
def hexDigitVal (c : Char) : Nat :=
  if c.isDigit then c.toNat - 48
  else if decide ('a' ≤ c) && decide (c ≤ 'f') then c.toNat - 87
  else c.toNat - 55

/-- Numeric value of a digit list in the given base. -/
def radixVal (base : Nat) (l : List Char) : Nat :=
  l.foldl (fun acc c => base * acc + hexDigitVal c) 0

/-- Parser for a non-decimal integer literal body (`0x`/`0o`/`0b` already
consumed): one or more digits of the base, nothing else. -/
def parseRadix (base : Nat) (isDig : Char → Bool) (l : List Char) : Option JsNum :=
  if !l.isEmpty && l.all isDig then some (.finite ((radixVal base l : Nat) : ℚ)) else none

/-- Parser for the exponent digits after `e`/`E`: an optional sign and at
least one decimal digit. -/
def parseExponent (l : List Char) : Option Int :=
  match l with
  | [] => none
  | '+' :: rest =>
      if !rest.isEmpty && rest.all Char.isDigit then some ((digitsVal rest : Nat) : Int) else none
  | '-' :: rest =>
      if !rest.isEmpty && rest.all Char.isDigit then some (-((digitsVal rest : Nat) : Int))
      else none
  | _ => if l.all Char.isDigit then some ((digitsVal l : Nat) : Int) else none

/-- Parser for the mantissa of a decimal literal: `digits`, `digits.`,
`digits.digits` or `.digits`. -/
def parseMantissa (l : List Char) : Option ℚ :=
  let ip := l.takeWhile Char.isDigit
  match l.dropWhile Char.isDigit with
  | [] => if ip.isEmpty then none else some ((digitsVal ip : Nat) : ℚ)
  | '.' :: frac =>
      if frac.all Char.isDigit && !(ip.isEmpty && frac.isEmpty) then
        some (((digitsVal (ip ++ frac) : Nat) : ℚ) / (10 : ℚ) ^ frac.length)
      else none
  | _ => none

/-- Parser for `StrDecimalLiteral` without its sign: `Infinity` or a
decimal literal with an optional exponent part. -/
def parseUnsignedDecimal (l : List Char) (neg : Bool) : Option JsNum :=
  if l = "Infinity".data then some (if neg then .negInf else .posInf)
  else
    let pre := l.takeWhile (fun c => !(c == 'e' || c == 'E'))
    let post := l.dropWhile (fun c => !(c == 'e' || c == 'E'))
    match post with
    | [] =>
        match parseMantissa pre with
        | some m => some (.finite (if neg then -m else m))
        | none => none
    | _ :: expPart =>
        match parseMantissa pre, parseExponent expPart with
        | some m, some e =>
            some (.finite (if neg then -(m * (10 : ℚ) ^ e) else m * (10 : ℚ) ^ e))
        | _, _ => none

/-- Parser for a signed decimal literal. -/
def parseSignedDecimal (l : List Char) : Option JsNum :=
  match l with
  | '+' :: rest => parseUnsignedDecimal rest false
  | '-' :: rest => parseUnsignedDecimal rest true
  | _ => parseUnsignedDecimal l false

/-- Parser for `StrNumericLiteral` (surrounding whitespace already
stripped, input nonempty): a non-decimal integer literal (which admits no
sign) or a signed decimal literal. -/
def parseStrNumericLiteral (l : List Char) : Option JsNum :=
  match l with
  | '0' :: c :: rest =>
      if c == 'x' || c == 'X' then parseRadix 16 isHexDigit rest
      else if c == 'o' || c == 'O' then parseRadix 8 isOctDigit rest
      else if c == 'b' || c == 'B' then parseRadix 2 isBinDigit rest
      else parseSignedDecimal l
  | _ => parseSignedDecimal l

/-- Model of JavaScript's string-to-number coercion (`ToNumber` on a
string, the `StringNumericLiteral` grammar): strip leading and trailing
whitespace; the empty remainder coerces to `0`; otherwise parse a
decimal literal with optional sign, fraction and exponent, `Infinity`,
or an unsigned `0x`/`0o`/`0b` literal; anything else is `NaN`, modelled
as `none`. -/
def jsStrToNumber (s : String) : Option JsNum :=
  let t := ((s.data.dropWhile isJsWhitespace).reverse.dropWhile isJsWhitespace).reverse
  match t with
  | [] => some (.finite 0)
  | _ => parseStrNumericLiteral t

/-- JavaScript number coercion of a `JsVal` (`none` models `NaN`). -/
def jsToNumber : JsVal → Option JsNum
  | .undef => none
  | .num n => some (.finite (n : ℚ))
  | .str s => jsStrToNumber s
  | .jnull => some (.finite 0)
  | .jbool b => some (.finite (if b then 1 else 0))

/-- Model of the JavaScript comparison `v > now` (line 53 of the game
script: `saved.expires_at > now`): coerce `v` to a number; a `NaN`
comparison is false. -/
def jsGt (v : JsVal) (now : Int) : Bool :=
  match jsToNumber v with
  | none => false
  | some (.finite q) => decide ((now : ℚ) < q)
  | some .posInf => true
  | some .negInf => false

/-! ## Token provider state -/

/-- Parsed content of the token cache file: the two fields the code
touches, each possibly absent or ill-typed (`saved.access_token`,
`saved.expires_at`). -/
structure SavedToken where
  access_token : Option String
  expires_at : JsVal
  deriving DecidableEq

/-- State of the token cache file `tokenTwitch.json`: missing
(`fs.existsSync` is false), present but unparsable (`JSON.parse` throws),
or a parsed object. -/
inductive FileState where
  | absent : FileState
  | invalid : String → FileState
  | parsed : SavedToken → FileState
  deriving DecidableEq

/-- Upstream failure of the credential exchange, as carried by the axios
error the code logs and rethrows: the HTTP status when the server
responded (`none` for a network error) and its message. -/
structure AuthError where
  status : Option Nat
  message : String
  deriving DecidableEq

/-- Exception thrown inside `getToken`'s try block: either `JSON.parse`
threw on the cache file, or `fetchNewToken` rethrew the exchange error. -/
inductive Thrown where
  | parseError : String → Thrown
  | authError : AuthError → Thrown
  deriving DecidableEq

/-- Outcome of the credential exchange against the Twitch token endpoint:
a well-formed success body `{access_token, expires_in}`, or an HTTP-layer
failure (network error or non-2xx response). -/
inductive ExchangeResult where
  | success : String → Int → ExchangeResult
  | failure : AuthError → ExchangeResult
  deriving DecidableEq

/-- Value `getToken` hands its caller.  The TypeScript signature is
`Promise<string | null>`; `raised` is included so that propagating an
exception to the caller is expressible (the code never does). -/
inductive TokenOutcome where
  | ok : String → TokenOutcome
  | nullResult : TokenOutcome
  | raised : Thrown → TokenOutcome
  deriving DecidableEq

/-- Whether an outcome is a propagated exception. -/
def isRaised : TokenOutcome → Bool
  | .raised _ => true
  | _ => false

/-- Whether an outcome is a returned token string. -/
def isOk : TokenOutcome → Bool
  | .ok _ => true
  | _ => false

/-- Observable behaviour of one `getToken()` call: its result, the final
token-file state, and how many credential-exchange requests it issued. -/
structure GetTokenRun where
  result : TokenOutcome
  file : FileState
  exchanges : Nat
  deriving DecidableEq

/-! ## The provider, translated from the game script

`fetchNewToken` (lines 26-44) posts the client credentials and returns
`response.data`; on error it logs and rethrows.  `getToken` (lines 47-72)
reads the cache, returns the saved token while `saved.expires_at > now`,
otherwise fetches a new token, writes
`{access_token, expires_at: now + expires_in}` and returns it; its
`catch` turns any error into `null`.  The two `Date.now()` reads (lines
52 and 61) are the parameters `now` and `now2`. -/

/-- Model of `fetchNewToken`: a successful exchange resolves with the
response body, a failed one rethrows the axios error. -/
def fetchNewToken (ex : ExchangeResult) : Except Thrown (String × Int) :=
  match ex with
  | .success tok ein => .ok (tok, ein)
  | .failure e => .error (.authError e)

/-- Model of lines 50-51: `existsSync` then `JSON.parse (readFileSync ...)`;
an unparsable file throws. -/
def readCache (fs : FileState) : Except Thrown (Option SavedToken) :=
  match fs with
  | .absent => .ok none
  | .invalid raw => .error (.parseError raw)
  | .parsed p => .ok (some p)

/-- Model of lines 59-67: fetch a new token, compute
`expires_at = now2 + expires_in`, overwrite the cache file and return the
new token; a throw from `fetchNewToken` propagates before any write. -/
def refresh (fs : FileState) (now2 : Int) (ex : ExchangeResult) :
    Except Thrown (Option String) × FileState × Nat :=
  match fetchNewToken ex with
  | .error t => (.error t, fs, 1)
  | .ok (tok, ein) => (.ok (some tok), .parsed ⟨some tok, .num (now2 + ein)⟩, 1)

/-- Body of `getToken`'s try block (lines 48-67): cache hit returns
`saved.access_token` without a network call, otherwise the refresh path
runs. -/
def getTokenBody (fs : FileState) (now now2 : Int) (ex : ExchangeResult) :
    Except Thrown (Option String) × FileState × Nat :=
  match readCache fs with
  | .error t => (.error t, fs, 0)
  | .ok none => refresh fs now2 ex
  | .ok (some p) =>
      if jsGt p.expires_at now then (.ok p.access_token, fs, 0)
      else refresh fs now2 ex

/-- Model of `getToken` (lines 47-72): the try body wrapped in the catch
that logs and returns `null` (returning an `undefined` `access_token` is
`null` at the interface as well). -/
def getToken (fs : FileState) (now now2 : Int) (ex : ExchangeResult) : GetTokenRun :=
  match getTokenBody fs now now2 ex with
  | (.ok (some t), f, n) => ⟨.ok t, f, n⟩
  | (.ok none, f, n) => ⟨.nullResult, f, n⟩
  | (.error _, f, n) => ⟨.nullResult, f, n⟩

/-- The cache-read step of `getToken` (lines 50-56) treats the file as a
valid cached token exactly when it parses and `saved.expires_at > now`. -/
def cacheHit (fs : FileState) (now : Int) : Bool :=
  match fs with
  | .parsed p => jsGt p.expires_at now
  | _ => false

/-- Cache-miss precondition of the specification: the persisted record is
absent, or present with `expires_at` not greater than the current time. -/
def cacheMiss (fs : FileState) (now : Int) : Prop :=
  fs = .absent ∨ ∃ p, fs = .parsed p ∧ jsGt p.expires_at now = false

/-- Malformed-expiry precondition: the `expires_at` field is missing or a
non-numeric string. -/
def expiresMalformed (v : JsVal) : Prop :=
  v = .undef ∨ ∃ s, v = .str s ∧ jsStrToNumber s = none

/-- Positivity of the reported token lifetime: a successful exchange
body carries `expires_in > 0`. -/
def exPos : ExchangeResult → Bool
  | .success _ ein => decide (0 < ein)
  | .failure _ => true

/-- Helper: on a numeric `expires_at` the JavaScript comparison is plain
integer comparison. -/
theorem jsGt_num (T now : Int) : jsGt (.num T) now = decide (now < T) := by
  simp only [jsGt, jsToNumber]
  rw [decide_eq_decide]
  exact Int.cast_lt

/-! ## Claims about the token provider -/

/-- Claim C1: for every persisted token record whose `expires_at` is
strictly greater than the current time, `getToken()` returns that
record's `access_token` immediately, issues no credential-exchange
request, and leaves the file unchanged. -/
theorem getToken_cache_hit (tok : String) (T now now2 : Int) (ex : ExchangeResult)
    (h : now < T) :
    getToken (.parsed ⟨some tok, .num T⟩) now now2 ex =
      ⟨.ok tok, .parsed ⟨some tok, .num T⟩, 0⟩ := by
  simp [getToken, getTokenBody, readCache, jsGt_num, h]

/-- Witness for C1 at the spec's example record. -/
theorem getToken_cache_hit_witness :
    (100 : Int) < 9999999999 ∧
      getToken (.parsed ⟨some "tok1", .num 9999999999⟩) 100 100
          (.failure ⟨none, "unreachable"⟩) =
        ⟨.ok "tok1", .parsed ⟨some "tok1", .num 9999999999⟩, 0⟩ :=
  ⟨by decide,
   getToken_cache_hit "tok1" 9999999999 100 100 (.failure ⟨none, "unreachable"⟩) (by decide)⟩

/-- Claim C2: from a cache miss (record absent or not strictly in the
future), a successful exchange leads `getToken()` to issue exactly one
request, persist `{access_token, expires_at := now + expires_in}` over
any prior record, and return the new token. -/
theorem getToken_cache_miss_success (fs : FileState) (now now2 : Int)
    (tok : String) (ein : Int) (h : cacheMiss fs now) :
    getToken fs now now2 (.success tok ein) =
      ⟨.ok tok, .parsed ⟨some tok, .num (now2 + ein)⟩, 1⟩ := by
  rcases h with h | ⟨p, rfl, hp⟩
  · subst h
    simp [getToken, getTokenBody, readCache, refresh, fetchNewToken]
  · simp [getToken, getTokenBody, readCache, refresh, fetchNewToken, hp]

/-- Witness for C2 at the spec's example: a stale record
`{access_token := "tok1", expires_at := 1}` and a fresh
`{access_token := "tok2", expires_in := 3600}`. -/
theorem getToken_cache_miss_success_witness :
    cacheMiss (.parsed ⟨some "tok1", .num 1⟩) 1000 ∧
      getToken (.parsed ⟨some "tok1", .num 1⟩) 1000 1000 (.success "tok2" 3600) =
        ⟨.ok "tok2", .parsed ⟨some "tok2", .num 4600⟩, 1⟩ :=
  ⟨Or.inr ⟨⟨some "tok1", .num 1⟩, rfl, by decide⟩,
   getToken_cache_miss_success (.parsed ⟨some "tok1", .num 1⟩) 1000 1000 "tok2" 3600
     (Or.inr ⟨⟨some "tok1", .num 1⟩, rfl, by decide⟩)⟩

/-- Counterexample to claim C3 as stated: on a failing exchange (HTTP 500
here) `getToken()` neither returns a token nor raises — its result is
`null`, so the contract "returns a valid token or raises an AuthError" is
violated. -/
theorem getToken_failure_not_raised_cex :
    isRaised (getToken .absent 0 0 (.failure ⟨some 500, "exchange failed"⟩)).result = false ∧
      isOk (getToken .absent 0 0 (.failure ⟨some 500, "exchange failed"⟩)).result = false := by
  decide

/-- Claim C3 (amended): for every failing credential exchange,
`getToken()` catches the error (the upstream status/message is logged)
and returns `null` instead of raising, having issued exactly one exchange
request — it never retries. -/
theorem getToken_failure_returns_null (fs : FileState) (now now2 : Int)
    (e : AuthError) (h : cacheMiss fs now) :
    (getToken fs now now2 (.failure e)).result = .nullResult ∧
      (getToken fs now now2 (.failure e)).exchanges = 1 := by
  rcases h with h | ⟨p, rfl, hp⟩
  · subst h
    simp [getToken, getTokenBody, readCache, refresh, fetchNewToken]
  · simp [getToken, getTokenBody, readCache, refresh, fetchNewToken, hp]

/-- Witness for the amended C3 at a concrete network failure. -/
theorem getToken_failure_returns_null_witness :
    cacheMiss .absent 0 ∧
      (getToken .absent 0 0 (.failure ⟨none, "network error"⟩)).result = .nullResult ∧
        (getToken .absent 0 0 (.failure ⟨none, "network error"⟩)).exchanges = 1 :=
  ⟨Or.inl rfl,
   getToken_failure_returns_null .absent 0 0 ⟨none, "network error"⟩ (Or.inl rfl)⟩

/-- Counterexample to claim C4 as stated: when the exchange reports
`expires_in = 0`, the freshly fetched token is returned although its
persisted record has `expires_at = now`, which is not strictly greater
than the current time. -/
theorem getToken_freshness_cex :
    (getToken .absent 5 5 (.success "tok2" 0)).result = .ok "tok2" ∧
      (getToken .absent 5 5 (.success "tok2" 0)).file = .parsed ⟨some "tok2", .num 5⟩ ∧
        jsGt (.num 5) 5 = false := by
  decide

/-- Claim C4 (amended): provided every successful exchange reports a
positive `expires_in`, each token `getToken()` returns corresponds to a
persisted record whose `expires_at` is strictly greater than the clock
read of its own path (the cache-check read on a hit, the refresh-time
read on a miss), and the token file is either left untouched or
overwritten with a record valid at write time. -/
theorem getToken_freshness (fs : FileState) (now now2 : Int) (ex : ExchangeResult)
    (t : String) (hex : exPos ex = true)
    (hok : (getToken fs now now2 ex).result = .ok t) :
    (∃ p : SavedToken, (getToken fs now now2 ex).file = .parsed p ∧
        p.access_token = some t ∧
        jsGt p.expires_at (if (getToken fs now now2 ex).exchanges = 0 then now else now2)
          = true) ∧
      ((getToken fs now now2 ex).file = fs ∨
        ∃ p : SavedToken, (getToken fs now now2 ex).file = .parsed p ∧
          jsGt p.expires_at now2 = true) := by
  cases fs with
  | absent =>
      cases ex with
      | success tok ein =>
          have hpos : 0 < ein := by simpa [exPos] using hex
          have hrun : getToken .absent now now2 (.success tok ein) =
              ⟨.ok tok, .parsed ⟨some tok, .num (now2 + ein)⟩, 1⟩ := by
            simp [getToken, getTokenBody, readCache, refresh, fetchNewToken]
          rw [hrun] at hok ⊢
          have ht : tok = t := by simpa using hok
          subst ht
          refine ⟨⟨⟨some tok, .num (now2 + ein)⟩, rfl, rfl, ?_⟩,
            Or.inr ⟨⟨some tok, .num (now2 + ein)⟩, rfl, ?_⟩⟩
          · simp only [jsGt_num, decide_eq_true_eq]
            split
            · omega
            · omega
          · simp only [jsGt_num, decide_eq_true_eq]
            omega
      | failure e =>
          simp [getToken, getTokenBody, readCache, refresh, fetchNewToken] at hok
  | invalid raw =>
      simp [getToken, getTokenBody, readCache] at hok
  | parsed p =>
      by_cases hp : jsGt p.expires_at now = true
      · cases ha : p.access_token with
        | none =>
            have hrun : getToken (.parsed p) now now2 ex = ⟨.nullResult, .parsed p, 0⟩ := by
              simp [getToken, getTokenBody, readCache, hp, ha]
            rw [hrun] at hok
            exact absurd hok (by simp)
        | some a =>
            have hrun : getToken (.parsed p) now now2 ex = ⟨.ok a, .parsed p, 0⟩ := by
              simp [getToken, getTokenBody, readCache, hp, ha]
            rw [hrun] at hok ⊢
            have ht : a = t := by simpa using hok
            subst ht
            exact ⟨⟨p, rfl, ha, by simpa using hp⟩, Or.inl rfl⟩
      · cases ex with
        | success tok ein =>
            have hpos : 0 < ein := by simpa [exPos] using hex
            have hrun : getToken (.parsed p) now now2 (.success tok ein) =
                ⟨.ok tok, .parsed ⟨some tok, .num (now2 + ein)⟩, 1⟩ := by
              simp [getToken, getTokenBody, readCache, refresh, fetchNewToken, hp]
            rw [hrun] at hok ⊢
            have ht : tok = t := by simpa using hok
            subst ht
            refine ⟨⟨⟨some tok, .num (now2 + ein)⟩, rfl, rfl, ?_⟩,
              Or.inr ⟨⟨some tok, .num (now2 + ein)⟩, rfl, ?_⟩⟩
            · simp only [jsGt_num, decide_eq_true_eq]
              split
              · omega
              · omega
            · simp only [jsGt_num, decide_eq_true_eq]
              omega
        | failure e =>
            simp [getToken, getTokenBody, readCache, refresh, fetchNewToken, hp] at hok

/-- Witness for the amended C4 at a concrete refresh with
`expires_in = 3600`. -/
theorem getToken_freshness_witness :
    exPos (.success "tok2" 3600) = true ∧
      (getToken .absent 0 0 (.success "tok2" 3600)).result = .ok "tok2" ∧
      ((∃ p : SavedToken, (getToken .absent 0 0 (.success "tok2" 3600)).file = .parsed p ∧
          p.access_token = some "tok2" ∧
          jsGt p.expires_at
            (if (getToken .absent 0 0 (.success "tok2" 3600)).exchanges = 0 then 0 else 0)
            = true) ∧
        ((getToken .absent 0 0 (.success "tok2" 3600)).file = .absent ∨
          ∃ p : SavedToken, (getToken .absent 0 0 (.success "tok2" 3600)).file = .parsed p ∧
            jsGt p.expires_at 0 = true)) :=
  ⟨by decide, by decide,
   getToken_freshness .absent 0 0 (.success "tok2" 3600) "tok2" (by decide) (by decide)⟩

/-- Counterexample to claim C5 as stated: on an HTTP 401 exchange failure
`getToken()` does not raise the error — its result is `null` (the
no-write half of the claim does hold, see the amended theorem). -/
theorem getToken_401_not_raised_cex :
    isRaised (getToken (.parsed ⟨some "tok1", .num 1⟩) 1000 1000
        (.failure ⟨some 401, "Unauthorized"⟩)).result = false ∧
      (getToken (.parsed ⟨some "tok1", .num 1⟩) 1000 1000
        (.failure ⟨some 401, "Unauthorized"⟩)).result = .nullResult := by
  decide

/-- Claim C5 (amended): for every failing credential exchange (in
particular an HTTP 401 response), `getToken()` returns `null` without
writing a cache record — the token file's content is exactly what it was
before the call. -/
theorem getToken_error_preserves_file (fs : FileState) (now now2 : Int)
    (e : AuthError) (h : cacheMiss fs now) :
    (getToken fs now now2 (.failure e)).file = fs ∧
      (getToken fs now now2 (.failure e)).result = .nullResult := by
  rcases h with h | ⟨p, rfl, hp⟩
  · subst h
    simp [getToken, getTokenBody, readCache, refresh, fetchNewToken]
  · simp [getToken, getTokenBody, readCache, refresh, fetchNewToken, hp]

/-- Witness for the amended C5 at a concrete 401 failure over a stale
record. -/
theorem getToken_error_preserves_file_witness :
    cacheMiss (.parsed ⟨some "tok1", .num 1⟩) 1000 ∧
      (getToken (.parsed ⟨some "tok1", .num 1⟩) 1000 1000
          (.failure ⟨some 401, "Unauthorized"⟩)).file = .parsed ⟨some "tok1", .num 1⟩ ∧
        (getToken (.parsed ⟨some "tok1", .num 1⟩) 1000 1000
          (.failure ⟨some 401, "Unauthorized"⟩)).result = .nullResult :=
  ⟨Or.inr ⟨⟨some "tok1", .num 1⟩, rfl, by decide⟩,
   getToken_error_preserves_file (.parsed ⟨some "tok1", .num 1⟩) 1000 1000
     ⟨some 401, "Unauthorized"⟩ (Or.inr ⟨⟨some "tok1", .num 1⟩, rfl, by decide⟩)⟩

/-- Helper: a missing or non-numeric `expires_at` never passes the
JavaScript comparison `expires_at > now`. -/
theorem jsGt_malformed (v : JsVal) (now : Int) (h : expiresMalformed v) :
    jsGt v now = false := by
  rcases h with rfl | ⟨s, rfl, hs⟩
  · rfl
  · simp [jsGt, jsToNumber, hs]

/-- Claim C6: a persisted record whose `expires_at` is missing or a
non-numeric string is treated as expired: `getToken()` behaves exactly as
in the cache-miss case (same result, same number of exchange requests as
when the file is absent), performing an exchange rather than returning
the stored `access_token`. -/
theorem getToken_malformed_expiry (a : Option String) (v : JsVal) (now now2 : Int)
    (ex : ExchangeResult) (h : expiresMalformed v) :
    (getToken (.parsed ⟨a, v⟩) now now2 ex).result = (getToken .absent now now2 ex).result ∧
      (getToken (.parsed ⟨a, v⟩) now now2 ex).exchanges
        = (getToken .absent now now2 ex).exchanges := by
  have hv : jsGt v now = false := jsGt_malformed v now h
  cases ex with
  | success tok ein =>
      simp [getToken, getTokenBody, readCache, refresh, fetchNewToken, hv]
  | failure e =>
      simp [getToken, getTokenBody, readCache, refresh, fetchNewToken, hv]

/-- Witness for C6 at a record whose `expires_at` is the non-numeric
string "abc". -/
theorem getToken_malformed_expiry_witness :
    expiresMalformed (.str "abc") ∧
      (getToken (.parsed ⟨some "tok1", .str "abc"⟩) 0 0 (.success "tok2" 3600)).result
          = (getToken .absent 0 0 (.success "tok2" 3600)).result ∧
        (getToken (.parsed ⟨some "tok1", .str "abc"⟩) 0 0 (.success "tok2" 3600)).exchanges
          = (getToken .absent 0 0 (.success "tok2" 3600)).exchanges :=
  ⟨Or.inr ⟨"abc", rfl, by decide⟩,
   getToken_malformed_expiry (some "tok1") (.str "abc") 0 0 (.success "tok2" 3600)
     (Or.inr ⟨"abc", rfl, by decide⟩)⟩

/-- Claim C7: after persisting `{access_token := tok, expires_at := T}`,
the cache-read step of `getToken()` yields a cache hit — the stored token
is returned with no exchange request — if and only if `T > now` at the
time of the read. -/
theorem getToken_roundtrip (tok : String) (T now now2 : Int) (ex : ExchangeResult) :
    ((getToken (.parsed ⟨some tok, .num T⟩) now now2 ex).exchanges = 0 ∧
        (getToken (.parsed ⟨some tok, .num T⟩) now now2 ex).result = .ok tok)
      ↔ now < T := by
  by_cases h : now < T
  · have hrun : getToken (.parsed ⟨some tok, .num T⟩) now now2 ex =
        ⟨.ok tok, .parsed ⟨some tok, .num T⟩, 0⟩ := by
      simp [getToken, getTokenBody, readCache, jsGt_num, h]
    rw [hrun]
    simp [h]
  · have hv : jsGt (JsVal.num T) now = false := by
      simp [jsGt_num, h]
    have hex1 : (getToken (.parsed ⟨some tok, .num T⟩) now now2 ex).exchanges = 1 := by
      cases ex with
      | success t2 e2 =>
          simp [getToken, getTokenBody, readCache, refresh, fetchNewToken, hv]
      | failure e =>
          simp [getToken, getTokenBody, readCache, refresh, fetchNewToken, hv]
    constructor
    · intro hc
      rw [hex1] at hc
      exact absurd hc.1 (by decide)
    · intro hT
      exact absurd hT h

/-- Claim C8: `getToken()` is total at its interface: whatever the cache
file state and exchange outcome, it returns a token string or `null`, and
never propagates an exception to its caller. -/
theorem getToken_total_no_raise (fs : FileState) (now now2 : Int) (ex : ExchangeResult) :
    (∃ t, (getToken fs now now2 ex).result = .ok t) ∨
      (getToken fs now now2 ex).result = .nullResult := by
  unfold getToken
  rcases hb : getTokenBody fs now now2 ex with ⟨r, f, n⟩
  cases r with
  | ok o =>
      cases o with
      | some t => exact Or.inl ⟨t, rfl⟩
      | none => exact Or.inr rfl
  | error t => exact Or.inr rfl

/-! ## Slugification shared by the metadata scripts

The book, light-novel, manga and movie/series scripts all derive the slug
from the fetched title with the same expression:
`title.toLowerCase().replace(/[^a-z0-9]+/g, "-").replace(/^-+|-+$/g, "")`.
`collapseGo` models the first replace (every maximal run of characters
outside `[a-z0-9]` becomes a single hyphen; the flag records whether the
scan is inside such a run), and `stripHyphens` the second (the leading
and the trailing hyphen run are removed). -/

/-- Character class `[a-z0-9]` of the slug regex (ASCII only, as in the
regex). -/
def isSlugChar (c : Char) : Bool := c.isLower || c.isDigit

/-- Model of `.replace(/[^a-z0-9]+/g, "-")`: the flag is true while the
scan is inside a run of non-slug characters already replaced. -/
def collapseGo : Bool → List Char → List Char
  | _, [] => []
  | inRun, c :: rest =>
    if isSlugChar c then c :: collapseGo false rest
    else if inRun then collapseGo true rest
    else '-' :: collapseGo true rest

/-- Leading half of `.replace(/^-+|-+$/g, "")`. -/
def dropLeadingHyphens (l : List Char) : List Char :=
  l.dropWhile (fun c => c == '-')

/-- Trailing half of `.replace(/^-+|-+$/g, "")`: removes the maximal
trailing run of hyphens. -/
def dropTrailingHyphens : List Char → List Char
  | [] => []
  | c :: rest =>
    match dropTrailingHyphens rest with
    | [] => if c == '-' then [] else [c]
    | r => c :: r

/-- Model of `.replace(/^-+|-+$/g, "")`. -/
def stripHyphens (l : List Char) : List Char :=
  dropTrailingHyphens (dropLeadingHyphens l)

/-- Model of the scripts' slug expression (`Char.toLower` models
`toLowerCase`; the character class below never distinguishes the
lowered characters it cannot represent). -/
def slugify (title : String) : String :=
  ⟨stripHyphens (collapseGo false (title.data.map Char.toLower))⟩

/-- Whether a character list does not start with a hyphen. -/
def headNotHyphen (l : List Char) : Bool :=
  match l.head? with
  | some c => !(c == '-')
  | none => true

/-- Whether a character list does not end with a hyphen. -/
def lastNotHyphen (l : List Char) : Bool :=
  match l.getLast? with
  | some c => !(c == '-')
  | none => true

/-- Whether a character list has no two consecutive hyphens. -/
def noDoubleHyphen : List Char → Bool
  | [] => true
  | a :: rest => (!(a == '-') || !(rest.head? == some '-')) && noDoubleHyphen rest

/-- Normal form claimed for slugs: only lowercase ASCII letters, digits
and hyphens, no leading or trailing hyphen, no two consecutive hyphens. -/
def isNormalizedSlug (s : String) : Bool :=
  s.data.all (fun c => isSlugChar c || c == '-') &&
    headNotHyphen s.data && lastNotHyphen s.data && noDoubleHyphen s.data

/-- Helper: a slug character is not a hyphen. -/
theorem slugChar_ne_hyphen (c : Char) (h : isSlugChar c = true) : (c == '-') = false := by
  by_cases hc : c = '-'
  · subst hc
    exact absurd h (by decide)
  · simp [hc]

/-- Helper: every character `collapseGo` emits is a slug character or a
hyphen. -/
theorem collapseGo_mem (b : Bool) (l : List Char) (c : Char)
    (h : c ∈ collapseGo b l) : isSlugChar c = true ∨ c = '-' := by
  induction l generalizing b with
  | nil => simp [collapseGo] at h
  | cons a rest ih =>
      by_cases ha : isSlugChar a = true
      · rw [show collapseGo b (a :: rest) = a :: collapseGo false rest by
          simp [collapseGo, ha]] at h
        rcases List.mem_cons.mp h with rfl | h2
        · exact Or.inl ha
        · exact ih false h2
      · cases b with
        | true =>
            rw [show collapseGo true (a :: rest) = collapseGo true rest by
              simp [collapseGo, ha]] at h
            exact ih true h
        | false =>
            rw [show collapseGo false (a :: rest) = '-' :: collapseGo true rest by
              simp [collapseGo, ha]] at h
            rcases List.mem_cons.mp h with rfl | h2
            · exact Or.inr rfl
            · exact ih true h2

/-- Helper: inside a replaced run, the next emitted character is a slug
character. -/
theorem collapseGo_head_true (l : List Char) (c : Char)
    (h : (collapseGo true l).head? = some c) : isSlugChar c = true := by
  induction l with
  | nil => simp [collapseGo] at h
  | cons a rest ih =>
      by_cases ha : isSlugChar a = true
      · rw [show collapseGo true (a :: rest) = a :: collapseGo false rest by
          simp [collapseGo, ha]] at h
        simp at h
        subst h
        exact ha
      · rw [show collapseGo true (a :: rest) = collapseGo true rest by
          simp [collapseGo, ha]] at h
        exact ih h

/-- Helper: the output of `collapseGo` has no two consecutive hyphens. -/
theorem collapseGo_noDouble (b : Bool) (l : List Char) :
    noDoubleHyphen (collapseGo b l) = true := by
  induction l generalizing b with
  | nil => simp [collapseGo, noDoubleHyphen]
  | cons a rest ih =>
      by_cases ha : isSlugChar a = true
      · rw [show collapseGo b (a :: rest) = a :: collapseGo false rest by
          simp [collapseGo, ha]]
        simp [noDoubleHyphen, slugChar_ne_hyphen a ha, ih false]
      · cases b with
        | true =>
            rw [show collapseGo true (a :: rest) = collapseGo true rest by
              simp [collapseGo, ha]]
            exact ih true
        | false =>
            rw [show collapseGo false (a :: rest) = '-' :: collapseGo true rest by
              simp [collapseGo, ha]]
            have hsecond : ¬ (collapseGo true rest).head? = some '-' := by
              cases hh : (collapseGo true rest).head? with
              | none => simp
              | some c =>
                  have hc := collapseGo_head_true rest c hh
                  simp only [Option.some.injEq]
                  intro hcon
                  subst hcon
                  exact absurd hc (by decide)
            simp [noDoubleHyphen, hsecond, ih true]

/-- Helper: membership in a `dropWhile` result. -/
theorem dropWhile_mem_of (p : Char → Bool) (l : List Char) (c : Char)
    (h : c ∈ l.dropWhile p) : c ∈ l := by
  induction l with
  | nil => simp [List.dropWhile] at h
  | cons a rest ih =>
      by_cases hp : p a = true
      · rw [show (a :: rest).dropWhile p = rest.dropWhile p by simp [List.dropWhile, hp]] at h
        exact List.mem_cons.mpr (Or.inr (ih h))
      · rw [show (a :: rest).dropWhile p = a :: rest by simp [List.dropWhile, hp]] at h
        exact h

/-- Helper: the head of a `dropWhile` result fails the dropped
predicate. -/
theorem dropWhile_head_not (p : Char → Bool) (l : List Char) (c : Char)
    (h : (l.dropWhile p).head? = some c) : p c = false := by
  induction l with
  | nil => simp [List.dropWhile] at h
  | cons a rest ih =>
      by_cases hp : p a = true
      · rw [show (a :: rest).dropWhile p = rest.dropWhile p by simp [List.dropWhile, hp]] at h
        exact ih h
      · rw [show (a :: rest).dropWhile p = a :: rest by simp [List.dropWhile, hp]] at h
        simp at h
        subst h
        simpa using hp

/-- Helper: `noDoubleHyphen` survives `dropWhile`. -/
theorem noDoubleHyphen_dropWhile (p : Char → Bool) (l : List Char)
    (h : noDoubleHyphen l = true) : noDoubleHyphen (l.dropWhile p) = true := by
  induction l with
  | nil => simpa [List.dropWhile] using h
  | cons a rest ih =>
      have h2 : noDoubleHyphen rest = true := by
        rw [noDoubleHyphen, Bool.and_eq_true] at h
        exact h.2
      by_cases hp : p a = true
      · rw [show (a :: rest).dropWhile p = rest.dropWhile p by simp [List.dropWhile, hp]]
        exact ih h2
      · rw [show (a :: rest).dropWhile p = a :: rest by simp [List.dropWhile, hp]]
        exact h

/-- Helper: membership in a `dropTrailingHyphens` result. -/
theorem dropTrailingHyphens_mem (l : List Char) (c : Char)
    (h : c ∈ dropTrailingHyphens l) : c ∈ l := by
  induction l with
  | nil => simp [dropTrailingHyphens] at h
  | cons a rest ih =>
      rw [dropTrailingHyphens] at h
      cases hr : dropTrailingHyphens rest with
      | nil =>
          rw [hr] at h
          by_cases ha : (a == '-') = true
          · simp [ha] at h
          · rw [if_neg (by simp [ha])] at h
            simp at h
            rw [h]
            exact List.mem_cons_self a rest
      | cons x xs =>
          rw [hr] at h
          rcases List.mem_cons.mp h with rfl | h2
          · exact List.mem_cons_self c rest
          · exact List.mem_cons.mpr (Or.inr (ih (hr ▸ h2)))

/-- Helper: `dropTrailingHyphens` keeps the head when the result is
nonempty. -/
theorem dropTrailingHyphens_head (l : List Char) (c : Char)
    (h : (dropTrailingHyphens l).head? = some c) : l.head? = some c := by
  cases l with
  | nil => simp [dropTrailingHyphens] at h
  | cons a rest =>
      rw [dropTrailingHyphens] at h
      cases hr : dropTrailingHyphens rest with
      | nil =>
          rw [hr] at h
          by_cases ha : (a == '-') = true
          · simp [ha] at h
          · rw [if_neg (by simp [ha])] at h
            simp at h
            simp [h]
      | cons x xs =>
          rw [hr] at h
          simp at h
          simp [h]

/-- Helper: the last character left by `dropTrailingHyphens` is not a
hyphen. -/
theorem dropTrailingHyphens_last (l : List Char) (c : Char)
    (h : (dropTrailingHyphens l).getLast? = some c) : (c == '-') = false := by
  induction l with
  | nil => simp [dropTrailingHyphens] at h
  | cons a rest ih =>
      rw [dropTrailingHyphens] at h
      cases hr : dropTrailingHyphens rest with
      | nil =>
          rw [hr] at h
          by_cases ha : (a == '-') = true
          · simp [ha] at h
          · rw [if_neg (by simp [ha])] at h
            simp at h
            subst h
            simpa using ha
      | cons x xs =>
          rw [hr] at h
          rw [List.getLast?_cons_cons] at h
          exact ih (hr ▸ h)

/-- Helper: `noDoubleHyphen` survives `dropTrailingHyphens`. -/
theorem dropTrailingHyphens_noDouble (l : List Char)
    (h : noDoubleHyphen l = true) : noDoubleHyphen (dropTrailingHyphens l) = true := by
  induction l with
  | nil => simpa [dropTrailingHyphens] using h
  | cons a rest ih =>
      rw [noDoubleHyphen, Bool.and_eq_true] at h
      obtain ⟨h1, h2⟩ := h
      rw [dropTrailingHyphens]
      cases hr : dropTrailingHyphens rest with
      | nil =>
          by_cases ha : (a == '-') = true
          · simp [ha, noDoubleHyphen]
          · rw [if_neg (by simp [ha])]
            simp [noDoubleHyphen]
      | cons x xs =>
          have hx : rest.head? = some x := dropTrailingHyphens_head rest x (by rw [hr]; rfl)
          rw [noDoubleHyphen, Bool.and_eq_true]
          refine ⟨?_, hr ▸ ih h2⟩
          rw [show (x :: xs).head? = some x from rfl]
          rw [hx] at h1
          exact h1

/-- Claim C9: for every input title, the slug computed by the scripts'
shared expression consists only of lowercase ASCII letters, digits and
hyphens, has no leading or trailing hyphen, and has no two consecutive
hyphens. -/
theorem slugify_normalized (t : String) : isNormalizedSlug (slugify t) = true := by
  have hdata : (slugify t).data
      = dropTrailingHyphens (dropLeadingHyphens (collapseGo false (t.data.map Char.toLower))) :=
    rfl
  have hall : ((slugify t).data.all (fun c => isSlugChar c || c == '-')) = true := by
    rw [List.all_eq_true]
    intro c hc
    rw [hdata] at hc
    have hc2 : c ∈ collapseGo false (t.data.map Char.toLower) :=
      dropWhile_mem_of _ _ c (dropTrailingHyphens_mem _ c hc)
    rcases collapseGo_mem false _ c hc2 with h | rfl
    · simp [h]
    · simp
  have hhead : headNotHyphen (slugify t).data = true := by
    rw [headNotHyphen]
    cases hh : (slugify t).data.head? with
    | none => rfl
    | some c =>
        rw [hdata] at hh
        have h1 := dropTrailingHyphens_head _ c hh
        have h2 := dropWhile_head_not (fun c => c == '-') _ c h1
        simp [h2]
  have hlast : lastNotHyphen (slugify t).data = true := by
    rw [lastNotHyphen]
    cases hh : (slugify t).data.getLast? with
    | none => rfl
    | some c =>
        rw [hdata] at hh
        simp [dropTrailingHyphens_last _ c hh]
  have hnd : noDoubleHyphen (slugify t).data = true := by
    rw [hdata]
    exact dropTrailingHyphens_noDouble _
      (noDoubleHyphen_dropWhile _ _ (collapseGo_noDouble false _))
  rw [isNormalizedSlug]
  simp [hall, hhead, hlast, hnd]

/-! ## Markdown templates and filenames

The book script (`add_books.ts`) and the game script write, for each
fetched item, a cover image named `<slug>.jpg`, a Markdown file named
`<slug>.md`, and a Markdown body whose `cover:` field embeds
`[[<slug>.jpg]]`.  The records and templates below are translated from
`BookInfo` / `generateMarkdown` / the `downloadImage` and
`createMarkdownFile` call sites of the two scripts. -/

namespace Books

/-- Record built by `fetchBookByIsbn` (`BookInfo`); the optional source
fields are filled with their fallbacks before use, as in the script. -/
structure BookInfo where
  title : String
  slug : String
  year : String
  categories : List String
  summary : String

/-- Filename passed to `downloadImage` for the cover
(`${book_info.slug}.jpg`). -/
def coverFilename (b : BookInfo) : String := b.slug ++ ".jpg"

/-- Filename passed to `createMarkdownFile` (`${bookInfo.slug}.md`). -/
def markdownFilename (b : BookInfo) : String := b.slug ++ ".md"

/-- Template of `generateMarkdown` in `add_books.ts`, with each category
tag slugified exactly as in the script. -/
def generateMarkdown (b : BookInfo) : String :=
  "---\ntitle: \"" ++ b.title ++ "\"\nrating:\nyear: \"" ++ b.year
    ++ "\"\ntags:\n    - book\n    "
    ++ String.intercalate "\n    " (b.categories.map (fun c => "- " ++ slugify c))
    ++ "\n    - wishlist\n" ++ "cover: \"[[" ++ b.slug ++ ".jpg" ++ "]]\""
    ++ "\n---\n> [!NOTE] Summary\n"
    ++ String.intercalate "\n" ((b.summary.splitOn "\n").map (fun line => "> " ++ line))

end Books

namespace Games

/-- Record built by `fetchGameById` (`GameInfo`); genre and theme slugs
come from the IGDB response. -/
structure GameInfo where
  title : String
  slug : String
  release_date : String
  genres : List String
  themes : List String
  summary : String

/-- Filename passed to `downloadImage` for the cover
(`${game_fetched.slug}.jpg`, and `game_info.slug` is set to
`game_fetched.slug`). -/
def coverFilename (g : GameInfo) : String := g.slug ++ ".jpg"

/-- Filename passed to `createMarkdownFile` (`${gameInfo.slug}.md`). -/
def markdownFilename (g : GameInfo) : String := g.slug ++ ".md"

/-- Template of `generateMarkdown` in the game script. -/
def generateMarkdown (g : GameInfo) : String :=
  "---\ntitle: \"" ++ g.title ++ "\"\nrating:\nrelease_date: \"" ++ g.release_date
    ++ "\"\ntags:\n    - game\n    "
    ++ String.intercalate "\n    " (g.genres.map (fun s => "- " ++ s))
    ++ "\n    "
    ++ String.intercalate "\n    " (g.themes.map (fun s => "- " ++ s))
    ++ "\n    - wishlist\n" ++ "cover: \"[[" ++ g.slug ++ ".jpg" ++ "]]\""
    ++ "\n---\n> [!NOTE] Summary\n"
    ++ String.intercalate "\n" ((g.summary.splitOn "\n").map (fun line => "> " ++ line))

end Games

/-- The `cover:` line a generated Markdown body embeds for an image
filename. -/
def coverField (filename : String) : String := "cover: \"[[" ++ filename ++ "]]\""

/-- Claim C10: for every fetched item of the book and game scripts, the
image filename embedded in the Markdown `cover:` field equals the
filename the cover is downloaded to (`<slug>.jpg`), and the Markdown file
itself is written as `<slug>.md` with the same slug. -/
theorem cover_link_consistent (b : Books.BookInfo) (g : Games.GameInfo) :
    ((∃ pre post, Books.generateMarkdown b = pre ++ coverField (Books.coverFilename b) ++ post) ∧
      Books.coverFilename b = b.slug ++ ".jpg" ∧
      Books.markdownFilename b = b.slug ++ ".md") ∧
    ((∃ pre post, Games.generateMarkdown g = pre ++ coverField (Games.coverFilename g) ++ post) ∧
      Games.coverFilename g = g.slug ++ ".jpg" ∧
      Games.markdownFilename g = g.slug ++ ".md") := by
  refine ⟨⟨⟨"---\ntitle: \"" ++ b.title ++ "\"\nrating:\nyear: \"" ++ b.year
      ++ "\"\ntags:\n    - book\n    "
      ++ String.intercalate "\n    " (b.categories.map (fun c => "- " ++ slugify c))
      ++ "\n    - wishlist\n",
    "\n---\n> [!NOTE] Summary\n"
      ++ String.intercalate "\n" ((b.summary.splitOn "\n").map (fun line => "> " ++ line)),
    ?_⟩, rfl, rfl⟩,
    ⟨⟨"---\ntitle: \"" ++ g.title ++ "\"\nrating:\nrelease_date: \"" ++ g.release_date
      ++ "\"\ntags:\n    - game\n    "
      ++ String.intercalate "\n    " (g.genres.map (fun s => "- " ++ s))
      ++ "\n    "
      ++ String.intercalate "\n    " (g.themes.map (fun s => "- " ++ s))
      ++ "\n    - wishlist\n",
    "\n---\n> [!NOTE] Summary\n"
      ++ String.intercalate "\n" ((g.summary.splitOn "\n").map (fun line => "> " ++ line)),
    ?_⟩, rfl, rfl⟩⟩
  · simp only [Books.generateMarkdown, coverField, Books.coverFilename, String.append_assoc]
  · simp only [Games.generateMarkdown, coverField, Games.coverFilename, String.append_assoc]
